import Mathlib

/-!
Shallow embedding of the fuel-station-finder route pipeline
(GPX route sampling, point-of-interest lookup with caching, route
enrichment, GPX serialization) from the repository source file
`src/unnamed/part_000` (class `FuelStationFinder` and its helpers).

Modelling conventions:
* JavaScript numbers are modelled by `JsNum`: NaN, signed infinities and
  finite values.  Finite values are exact rationals; IEEE-754 rounding is
  idealized away, which is the level at which the specification states its
  properties.
* The haversine great-circle distance (`calculateDistance` in the source)
  is transcendental, so the pipeline is embedded parametrically in a
  distance function `d : JsCoord → JsCoord → ℚ`; the theorems either hold
  for every such function or carry hypotheses (nonnegativity, zero
  distance implies equal coordinates) that the haversine formula
  satisfies.
* Network interaction (`fetch` + `response.json()`) is modelled by an
  `Except Unit OverpassData` value: `Except.error` covers a network
  failure, a non-2xx response (the source `throw`s on `!response.ok`),
  and a JSON parse failure, all of which land in the same `catch` block.
-/

attribute [local semireducible] Rat.add Rat.sub Rat.mul Rat.inv

/-- JsNum models the JavaScript number values reachable in the embedded
pipeline: NaN, signed infinities and finite values (exact rationals). -/
inductive JsNum where
  | nan : JsNum
  | inf : Bool → JsNum
  | num : ℚ → JsNum
deriving DecidableEq, Repr

namespace JsNum

/-- JavaScript addition.  `inf true` is negative infinity. -/
def add : JsNum → JsNum → JsNum
  | nan, _ => nan
  | _, nan => nan
  | inf s, inf t => if s = t then inf s else nan
  | inf s, num _ => inf s
  | num _, inf t => inf t
  | num a, num b => num (a + b)

/-- JavaScript unary negation. -/
def neg : JsNum → JsNum
  | nan => nan
  | inf s => inf (!s)
  | num a => num (-a)

/-- JavaScript subtraction. -/
def sub (x y : JsNum) : JsNum := add x (neg y)

/-- JavaScript multiplication (0 times an infinity is NaN). -/
def mul : JsNum → JsNum → JsNum
  | nan, _ => nan
  | _, nan => nan
  | inf s, inf t => inf (xor s t)
  | inf s, num b => if b = 0 then nan else inf (xor s (decide (b < 0)))
  | num a, inf t => if a = 0 then nan else inf (xor t (decide (a < 0)))
  | num a, num b => num (a * b)

/-- JavaScript division.  0/0 is NaN, nonzero/0 is a signed infinity
(the rational 0 plays the role of +0). -/
def div : JsNum → JsNum → JsNum
  | nan, _ => nan
  | _, nan => nan
  | inf _, inf _ => nan
  | inf s, num b => inf (xor s (decide (b < 0)))
  | num _, inf _ => num 0
  | num a, num b =>
      if b = 0 then (if a = 0 then nan else inf (decide (a < 0)))
      else num (a / b)

/-- JavaScript `x >= y` (false whenever NaN is involved). -/
def geB : JsNum → JsNum → Bool
  | nan, _ => false
  | _, nan => false
  | inf s, inf t => (!s) || t
  | inf s, num _ => !s
  | num _, inf t => t
  | num a, num b => decide (b ≤ a)

/-- JavaScript `x <= y` (false whenever NaN is involved). -/
def leB : JsNum → JsNum → Bool
  | nan, _ => false
  | _, nan => false
  | inf s, inf t => s || !t
  | inf s, num _ => s
  | num _, inf t => !t
  | num a, num b => decide (a ≤ b)

/-- JavaScript `x < y` (false whenever NaN is involved). -/
def ltB : JsNum → JsNum → Bool
  | nan, _ => false
  | _, nan => false
  | inf s, inf t => s && !t
  | inf s, num _ => s
  | num _, inf t => !t
  | num a, num b => decide (a < b)

end JsNum

/-- JS truthiness-based `a || b` on optional numbers: both `0` and
`undefined` (here `none`) are falsy. -/
def jsOrQ : Option ℚ → Option ℚ → Option ℚ
  | some a, b => if a = 0 then b else some a
  | none, b => b

/-- JS truthiness-based `a || dflt` on strings: the empty string is falsy. -/
def jsOrStr (a dflt : String) : String := if a = "" then dflt else a

/-- JS truthiness-based `a || dflt` on optional strings. -/
def jsOrStrOpt : Option String → String → String
  | some a, dflt => if a = "" then dflt else a
  | none, dflt => dflt

/-- JS truthiness of an optional number: `0` and `undefined` are falsy. -/
def truthyQ : Option ℚ → Bool
  | some a => decide (a ≠ 0)
  | none => false

/-- A parsed track point (output of the GPX parser): exact rational
coordinates and an optional elevation (`ele` may be absent on a raw
point; the parser itself always fills it, defaulting to 0). -/
structure TrackPoint where
  lat : ℚ
  lon : ℚ
  ele : Option ℚ
deriving DecidableEq, Repr

/-- A latitude/longitude pair as JavaScript numbers. -/
abbrev JsCoord := JsNum × JsNum

def coordOf (p : TrackPoint) : JsCoord := (JsNum.num p.lat, JsNum.num p.lon)

/-- A sampled route point, the output of `findPointAtDistance`:
interpolated coordinates may be NaN, hence `JsNum` fields. -/
structure Sample where
  lat : JsNum
  lon : JsNum
  ele : JsNum
deriving DecidableEq, Repr

def jsOfOpt : Option ℚ → JsNum
  | some q => JsNum.num q
  | none => JsNum.nan

/-- View a raw track point as a sample (used when `findPointAtDistance`
returns `routePoints[routePoints.length - 1]` unchanged; an absent
elevation behaves as NaN in any later arithmetic, like JS `undefined`). -/
def toSample (p : TrackPoint) : Sample :=
  { lat := JsNum.num p.lat, lon := JsNum.num p.lon, ele := jsOfOpt p.ele }

/-- Sum of consecutive pairwise distances starting from `p` through the
list (the loop body of `calculateTotalDistance`). -/
def chainSum (d : JsCoord → JsCoord → ℚ) : TrackPoint → List TrackPoint → ℚ
  | _, [] => 0
  | p, q :: r => d (coordOf p) (coordOf q) + chainSum d q r

/-- `calculateTotalDistance(points)` from the source: sums the pairwise
distances of consecutive points; 0 for fewer than two points. -/
def calculateTotalDistance (d : JsCoord → JsCoord → ℚ) : List TrackPoint → ℚ
  | [] => 0
  | p :: ps => chainSum d p ps

/-- The interpolated point built inside `findPointAtDistance`:
`prev + (p - prev) * frac` on each coordinate, in JS arithmetic. -/
def interpSample (prev p : TrackPoint) (frac : JsNum) : Sample :=
  { lat := (JsNum.num prev.lat).add (((JsNum.num p.lat).sub (JsNum.num prev.lat)).mul frac)
    lon := (JsNum.num prev.lon).add (((JsNum.num p.lon).sub (JsNum.num prev.lon)).mul frac)
    ele := (jsOfOpt prev.ele).add (((jsOfOpt p.ele).sub (jsOfOpt prev.ele)).mul frac) }

/-- The loop of `findPointAtDistance`: walk the segments accumulating
distance; on the first segment where the accumulated distance reaches
`target`, linearly interpolate; otherwise fall through to the last
point. -/
def fpadGo (d : JsCoord → JsCoord → ℚ) (lastP : TrackPoint) :
    TrackPoint → List TrackPoint → ℚ → JsNum → Sample
  | _, [], _, _ => toSample lastP
  | prev, p :: ps, acc, target =>
      let seg := d (coordOf prev) (coordOf p)
      if JsNum.geB (JsNum.num (acc + seg)) target then
        interpSample prev p ((target.sub (JsNum.num acc)).div (JsNum.num seg))
      else
        fpadGo d lastP p ps (acc + seg) target

/-- `findPointAtDistance(routePoints, targetDistance)` from the source.
For an empty list the source would yield `undefined` (here `none`). -/
def findPointAtDistance (d : JsCoord → JsCoord → ℚ) (pts : List TrackPoint)
    (target : JsNum) : Option Sample :=
  match pts with
  | [] => none
  | p :: rest => some (fpadGo d ((p :: rest).getLast (List.cons_ne_nil p rest)) p rest 0 target)

/-- The target distance `(i * totalDistance) / (numSamples - 1)` computed
in JS arithmetic (for `numSamples = 1` this is `0/0 = NaN`). -/
def sampleTarget (td : ℚ) (n i : ℕ) : JsNum :=
  (JsNum.num ((i : ℚ) * td)).div (JsNum.num ((n : ℚ) - 1))

/-- `sampleRoutePoints(routePoints, numSamples)` from the source: one
`findPointAtDistance` call per index, pushing the result when truthy
(an object is always truthy; only the empty-route `undefined` is not). -/
def sampleRoutePoints (d : JsCoord → JsCoord → ℚ) (pts : List TrackPoint)
    (numSamples : ℕ) : List Sample :=
  let td := calculateTotalDistance d pts
  (List.range numSamples).filterMap (fun i => findPointAtDistance d pts (sampleTarget td numSamples i))

/-- OSM tags of an Overpass element (only the fields the source reads). -/
structure OsmTags where
  amenity : Option String
  name : Option String
  brand : Option String
deriving DecidableEq, Repr

/-- An element of the Overpass JSON response: node elements carry `lat`
and `lon` directly, way elements expose a representative `center`. -/
structure OsmElement where
  id : ℤ
  tags : Option OsmTags
  lat : Option ℚ
  lon : Option ℚ
  center : Option (ℚ × ℚ)
deriving DecidableEq, Repr

/-- A successfully parsed Overpass response body (`data.elements` may be
absent, in which case the source falls back to `[]`). -/
structure OverpassData where
  elements : Option (List OsmElement)
deriving DecidableEq, Repr

/-- A fuel-station candidate as built by `findNearbyFuelStations`. -/
structure Station where
  id : ℤ
  name : String
  brand : String
  lat : Option ℚ
  lon : Option ℚ
  distance : JsNum
deriving DecidableEq, Repr

/-- The filter `element.tags && element.tags.amenity === 'fuel'`. -/
def isFuelB (e : OsmElement) : Bool :=
  match e.tags with
  | some t => t.amenity == some ("fuel")
  | none => false

/-- `element.lat || element.center?.lat` (JS truthiness: latitude 0 falls
through to the center coordinate). -/
def resolvedLat (e : OsmElement) : Option ℚ := jsOrQ e.lat (e.center.map Prod.fst)

/-- `element.lon || element.center?.lon`. -/
def resolvedLon (e : OsmElement) : Option ℚ := jsOrQ e.lon (e.center.map Prod.snd)

/-- The `.map` body of `findNearbyFuelStations`: name/brand defaults via
JS `||`, resolved coordinates, and the straight-line distance from the
query center (NaN when a coordinate is unresolvable, as the source's
haversine then computes on `undefined`). -/
def mkStation (d : JsCoord → JsCoord → ℚ) (center : JsCoord) (e : OsmElement) : Station :=
  { id := e.id
    name := jsOrStrOpt (e.tags.bind OsmTags.name) ("Unnamed Fuel Station")
    brand := jsOrStrOpt (e.tags.bind OsmTags.brand) ("Unknown")
    lat := resolvedLat e
    lon := resolvedLon e
    distance :=
      match resolvedLat e, resolvedLon e with
      | some la, some lo => JsNum.num (d center (JsNum.num la, JsNum.num lo))
      | _, _ => JsNum.nan }

/-- The filter `station.lat && station.lon && station.distance <= maxDistance`. -/
def keepStationB (maxDistance : ℚ) (s : Station) : Bool :=
  truthyQ s.lat && truthyQ s.lon && JsNum.leB s.distance (JsNum.num maxDistance)

/-- Insert into a list sorted by the boolean relation `le` (used to model
`Array.prototype.sort` with the comparator `(a, b) => key a - key b`). -/
def insertLe {α : Type} (le : α → α → Bool) (a : α) : List α → List α
  | [] => [a]
  | b :: t => if le a b then a :: b :: t else b :: insertLe le a t

/-- Insertion sort by the boolean relation `le`. -/
def insertionSort {α : Type} (le : α → α → Bool) : List α → List α
  | [] => []
  | a :: t => insertLe le a (insertionSort le t)

/-- The comparator `(a, b) => a.distance - b.distance` of the source sort
read as a "less or equal" test. -/
def stationLeB (a b : Station) : Bool := JsNum.leB a.distance b.distance

/-- The success-path candidate pipeline of `findNearbyFuelStations`:
filter fuel-tagged elements, build stations, keep truthily-coordinated
stations within the radius, sort ascending by distance, take 3. -/
def stationsOf (d : JsCoord → JsCoord → ℚ) (maxDistance : ℚ) (center : JsCoord)
    (data : OverpassData) : List Station :=
  List.take 3 (insertionSort stationLeB
    (List.filter (keepStationB maxDistance)
      (List.map (mkStation d center)
        (List.filter isFuelB (data.elements.getD [])))))

/-- `toFixed(3)` quantization of one JS number: round to integer
thousandths (ECMA toFixed picks the larger integer on ties, which is
`⌊x * 1000 + 1/2⌋`); NaN and infinities keep their own string keys, so
they stay distinct constructors. -/
def quant3 : JsNum → JsNum
  | JsNum.num q => JsNum.num ((⌊q * 1000 + 1/2⌋ : ℤ) : ℚ)
  | x => x

/-- The cache key `lat.toFixed(3) + "," + lon.toFixed(3)`. -/
def quantKey (c : JsCoord) : JsCoord := (quant3 c.1, quant3 c.2)

/-- The per-run POI cache (`this.cache`, a `Map`), as an association
list; insertion prepends, which has the same lookup semantics as
`Map.set`. -/
abbrev Cache := List (JsCoord × List Station)

def cacheLookup (cache : Cache) (k : JsCoord) : Option (List Station) :=
  match cache with
  | [] => none
  | (k2, v) :: rest => if k2 = k then some v else cacheLookup rest k

def cacheInsert (cache : Cache) (k : JsCoord) (v : List Station) : Cache :=
  (k, v) :: cache

/-- `findNearbyFuelStations(lat, lon)` from the source, one call: given
the distance function, the configured radius, the external response for
this call, the cache and the center, return the candidate list, the new
cache, and whether an external query was issued.  On a cache hit the
memoized list is returned with no query; on failure (`catch` block) the
empty list is returned and nothing is cached; on success the (possibly
empty) list is cached before returning. -/
def findNearbyFuelStations (d : JsCoord → JsCoord → ℚ) (maxDistance : ℚ)
    (resp : Except Unit OverpassData) (cache : Cache) (center : JsCoord) :
    List Station × Cache × Bool :=
  let key := quantKey center
  match cacheLookup cache key with
  | some v => (v, cache, false)
  | none =>
    match resp with
    | Except.error _ => ([], cache, true)
    | Except.ok data =>
        let stations := stationsOf d maxDistance center data
        (stations, cacheInsert cache key stations, true)

/-- `Math.max(1, Math.floor(routeLength / 1000 / minInterval))`. -/
def numStationsOf (d : JsCoord → JsCoord → ℚ) (minInterval : ℚ)
    (pts : List TrackPoint) : ℕ :=
  (max 1 ⌊calculateTotalDistance d pts / 1000 / minInterval⌋).toNat

/-- The first loop of `calculateDistanceAlongRoute`: index of the route
point strictly closest to the target sample (first-found minimum;
`closestDistance` starts at `Infinity`). -/
def bestIndexGo (d : JsCoord → JsCoord → ℚ) (target : Sample) :
    List TrackPoint → ℕ → ℕ → JsNum → ℕ
  | [], _, best, _ => best
  | p :: ps, i, best, closest =>
      let dist := JsNum.num (d (coordOf p) (target.lat, target.lon))
      if JsNum.ltB dist closest then bestIndexGo d target ps (i + 1) i dist
      else bestIndexGo d target ps (i + 1) best closest

/-- The second loop of `calculateDistanceAlongRoute`: sum of the first
`n` consecutive segment distances. -/
def sumToIndex (d : JsCoord → JsCoord → ℚ) : List TrackPoint → ℕ → ℚ
  | p :: q :: rest, Nat.succ n => d (coordOf p) (coordOf q) + sumToIndex d (q :: rest) n
  | _, _ => 0

/-- `calculateDistanceAlongRoute(routePoints, targetPoint)` from the
source: snap the sample to the nearest route vertex and sum distances
from the start up to that vertex. -/
def calculateDistanceAlongRoute (d : JsCoord → JsCoord → ℚ)
    (pts : List TrackPoint) (target : Sample) : ℚ :=
  sumToIndex d pts (bestIndexGo d target pts 0 0 (JsNum.inf false))

/-- An enriched station: the spread `{...bestStation, routeDistance,
routePoint}` of the source, modelled as a record holding the station. -/
structure EnrichedStation where
  station : Station
  routeDistance : ℚ
  routePoint : Sample
deriving DecidableEq, Repr

def mkEnriched (d : JsCoord → JsCoord → ℚ) (pts : List TrackPoint)
    (best : Station) (s : Sample) : EnrichedStation :=
  { station := best, routeDistance := calculateDistanceAlongRoute d pts s, routePoint := s }

/-- The per-sample query log: for each sample, the candidate list its
`findNearbyFuelStations` call returned, threading the cache exactly as
the enrichment loop does. -/
def enrichQueries (d : JsCoord → JsCoord → ℚ) (maxDistance : ℚ)
    (oracle : JsCoord → Except Unit OverpassData) :
    List Sample → Cache → List (Sample × List Station)
  | [], _ => []
  | s :: ss, cache =>
      let r := findNearbyFuelStations d maxDistance (oracle (s.lat, s.lon)) cache (s.lat, s.lon)
      (s, r.1) :: enrichQueries d maxDistance oracle ss r.2.1

/-- The enrichment loop of `findFuelStations`: for each sample, query the
POI client; when at least one candidate comes back, take the first
(nearest) and record it with its distance along the route; samples with
no candidate contribute nothing. -/
def enrichLoop (d : JsCoord → JsCoord → ℚ) (maxDistance : ℚ)
    (oracle : JsCoord → Except Unit OverpassData) (pts : List TrackPoint) :
    List Sample → Cache → List EnrichedStation × Cache
  | [], cache => ([], cache)
  | s :: ss, cache =>
      let r := findNearbyFuelStations d maxDistance (oracle (s.lat, s.lon)) cache (s.lat, s.lon)
      let rest := enrichLoop d maxDistance oracle pts ss r.2.1
      match r.1 with
      | [] => rest
      | best :: _ => (mkEnriched d pts best s :: rest.1, rest.2)

/-- Comparator of the final sort: `(a, b) => a.routeDistance - b.routeDistance`. -/
def enrichedLeB (a b : EnrichedStation) : Bool :=
  decide (a.routeDistance ≤ b.routeDistance)

/-- `findFuelStations(routePoints)` from the source: compute the sample
count, sample the route, enrich each sample, sort by distance along the
route. -/
def findFuelStations (d : JsCoord → JsCoord → ℚ) (maxDistance minInterval : ℚ)
    (oracle : JsCoord → Except Unit OverpassData) (pts : List TrackPoint) :
    List EnrichedStation :=
  let n := numStationsOf d minInterval pts
  let samples := sampleRoutePoints d pts n
  insertionSort enrichedLeB (enrichLoop d maxDistance oracle pts samples []).1

/-- Rendering of a JS number into the output document (`${point.lat}`).
The source relies on JavaScript number-to-string conversion; the
embedding renders integers the JS way and leaves other rationals in
their canonical Lean form (the claims only depend on the rendering being
a fixed function of the value). -/
def renderQ (q : ℚ) : String := if q.den = 1 then toString q.num else toString q

/-- Rendering of an optional number (`undefined` prints as "undefined"
in a JS template literal). -/
def renderOptQ : Option ℚ → String
  | some q => renderQ q
  | none => "undefined"

/-- One `<trkpt>` block of `generateGPX`: coordinates as attributes,
elevation only when present. -/
def trkptChunk (p : TrackPoint) : String :=
  "      <trkpt lat=\"" ++ renderQ p.lat ++ "\" lon=\"" ++ renderQ p.lon ++ "\">\n" ++
  (match p.ele with
   | some e => "        <ele>" ++ renderQ e ++ "</ele>\n"
   | none => "") ++
  "      </trkpt>\n"

/-- The `for (const point of track.segments[0])` loop of `generateGPX`,
appending one `<trkpt>` block per point to the accumulator. -/
def trkptLoop : List TrackPoint → String → String
  | [], acc => acc
  | p :: ps, acc => trkptLoop ps (acc ++ trkptChunk p)

/-- One `<wpt>` waypoint block of `generateGPX` for the i-th (0-based)
enriched station: 1-based label number, brand, rounded km distance, and
the raw (unescaped) name/brand text exactly as the source interpolates
it. -/
def wptChunk (i : ℕ) (s : EnrichedStation) : String :=
  let distanceKm : ℤ := ⌊s.routeDistance / 1000 + 1/2⌋
  "  <wpt lat=\"" ++ renderOptQ s.station.lat ++ "\" lon=\"" ++ renderOptQ s.station.lon ++ "\">\n" ++
  "    <name>⛽ #" ++ toString (i + 1) ++ " " ++ s.station.brand ++ " (" ++ toString distanceKm ++ "km)</name>\n" ++
  "    <desc>" ++ s.station.name ++ " - " ++ s.station.brand ++ " - " ++ toString distanceKm ++ "km from start</desc>\n" ++
  "    <sym>Gas Station</sym>\n" ++
  "    <type>Fuel</type>\n" ++
  "  </wpt>\n"

/-- The `for (let i = 0; i < fuelStations.length; i++)` loop of
`generateGPX`. -/
def wptLoop : ℕ → List EnrichedStation → String → String
  | _, [], acc => acc
  | i, s :: ss, acc => wptLoop (i + 1) ss (acc ++ wptChunk i s)

/-- A parsed GPX track: display name and point segments. -/
structure GpxTrack where
  name : String
  segments : List (List TrackPoint)
deriving DecidableEq, Repr

/-- A parsed GPX document (the parser also returns empty `routes` and
`waypoints` arrays which `generateGPX` never reads). -/
structure GpxData where
  tracks : List GpxTrack
deriving DecidableEq, Repr

/-- `generateGPX(gpxData, fuelStations)` from the source: XML header,
the first track's first segment re-emitted point by point, then one
waypoint per enriched station, then the closing tag.  No escaping is
applied to any interpolated text. -/
def generateGPX (gpx : GpxData) (fuelStations : List EnrichedStation) : String :=
  let xml := "<?xml version=\"1.0\" encoding=\"UTF-8\"?>\n"
  let xml := xml ++ "<gpx version=\"1.1\" creator=\"Fuel Station Finder Web App\" xmlns=\"http://www.topografix.com/GPX/1/1\">\n"
  let xml :=
    match gpx.tracks with
    | [] => xml
    | track :: _ =>
        let xml := xml ++ "  <trk>\n"
        let xml := xml ++ "    <name>" ++ jsOrStr track.name ("Enhanced Route") ++ "</name>\n"
        let xml :=
          match track.segments with
          | [] => xml
          | seg :: _ => trkptLoop seg (xml ++ "    <trkseg>\n") ++ "    </trkseg>\n"
        xml ++ "  </trk>\n"
  let xml := wptLoop 0 fuelStations xml
  xml ++ "</gpx>\n"

/-! ### Generic lemmas about the embedded sort and list plumbing -/

theorem insertLe_perm {α : Type} (le : α → α → Bool) (a : α) :
    ∀ l : List α, (insertLe le a l).Perm (a :: l) := by
  intro l
  induction l with
  | nil => simp [insertLe]
  | cons b t ih =>
    simp only [insertLe]
    by_cases h : le a b = true
    · rw [if_pos h]
    · rw [if_neg h]
      exact (ih.cons b).trans (List.Perm.swap a b t)

theorem insertionSort_perm {α : Type} (le : α → α → Bool) :
    ∀ l : List α, (insertionSort le l).Perm l := by
  intro l
  induction l with
  | nil => simp [insertionSort]
  | cons a t ih =>
    simp only [insertionSort]
    exact (insertLe_perm le a (insertionSort le t)).trans (ih.cons a)

theorem insertLe_chain {α : Type} (le : α → α → Bool) :
    ∀ (l : List α) (a : α), List.Chain' (fun x y => le x y = true) l →
      (∀ b ∈ l, le a b = true ∨ le b a = true) →
      List.Chain' (fun x y => le x y = true) (insertLe le a l) := by
  intro l
  induction l with
  | nil => intro a _ _; simp [insertLe]
  | cons b t ih =>
    intro a hchain htot
    by_cases hab : le a b = true
    · simp only [insertLe, if_pos hab]
      exact List.chain'_cons.mpr ⟨hab, hchain⟩
    · have hba : le b a = true := by
        rcases htot b (by simp) with h | h
        · exact absurd h hab
        · exact h
      simp only [insertLe, if_neg hab]
      cases t with
      | nil => simp [insertLe, hba]
      | cons c t2 =>
        have hbc := (List.chain'_cons.mp hchain).1
        have hct2 := (List.chain'_cons.mp hchain).2
        have ihh := ih a hct2 (fun x hx => htot x (by simp [hx]))
        by_cases hac : le a c = true
        · simp only [insertLe, if_pos hac] at ihh ⊢
          exact List.chain'_cons.mpr ⟨hba, ihh⟩
        · simp only [insertLe, if_neg hac] at ihh ⊢
          exact List.chain'_cons.mpr ⟨hbc, ihh⟩

theorem insertionSort_chain {α : Type} (le : α → α → Bool) :
    ∀ l : List α, (∀ a ∈ l, ∀ b ∈ l, le a b = true ∨ le b a = true) →
      List.Chain' (fun x y => le x y = true) (insertionSort le l) := by
  intro l
  induction l with
  | nil => intro _; simp [insertionSort]
  | cons a t ih =>
    intro htot
    simp only [insertionSort]
    refine insertLe_chain le (insertionSort le t) a
      (ih (fun x hx y hy => htot x (by simp [hx]) y (by simp [hy]))) ?_
    intro b hb
    have hbt : b ∈ t := (insertionSort_perm le t).mem_iff.mp hb
    exact htot a (by simp) b (by simp [hbt])

theorem filterMap_eq_map_of_forall_some {α β : Type} (f : α → Option β) (g : α → β) :
    ∀ l : List α, (∀ a ∈ l, f a = some (g a)) → l.filterMap f = l.map g := by
  intro l
  induction l with
  | nil => intro _; rfl
  | cons a t ih =>
    intro h
    have ha := h a (by simp)
    simp [List.filterMap_cons, ha, ih (fun x hx => h x (by simp [hx]))]

/-! ### Auxiliary facts about the sampler -/

/-- A constant distance function (any pair of points is `q` apart);
used to instantiate theorems whose conclusion does not depend on the
distance values. -/
def dConst (q : ℚ) : JsCoord → JsCoord → ℚ := fun _ _ => q

/-- With a NaN target distance, the `>=` test of `findPointAtDistance`
is false on every segment, so the loop falls through to the last point. -/
theorem fpadGo_nan (d : JsCoord → JsCoord → ℚ) (lastP : TrackPoint) :
    ∀ (rest : List TrackPoint) (prev : TrackPoint) (acc : ℚ),
      fpadGo d lastP prev rest acc JsNum.nan = toSample lastP := by
  intro rest
  induction rest with
  | nil => intro prev acc; rfl
  | cons p ps ih =>
    intro prev acc
    simp only [fpadGo, JsNum.geB]
    exact ih p _

/-! ### C1 -/

/-- C1: the claim states that `sampleRoutePoints(routePoints, 1)` returns
the route start.  It is FALSE on the code: the target distance is
`0 * total / 0 = NaN`, the NaN comparison never fires, and the sampler
returns the LAST route point.  Concretely, on the two-point route
`[(0,0), (1,1)]` with count 1 the result is the point `(1,1)`, not the
start `(0,0)` (the result is independent of the distance values, so a
constant distance function exhibits the actual code path). -/
theorem C1_sampler_count_one_returns_last_point :
    sampleRoutePoints (dConst 150000) [⟨0, 0, some 0⟩, ⟨1, 1, some 0⟩] 1
      = [{ lat := JsNum.num 1, lon := JsNum.num 1, ele := JsNum.num 0 }] ∧
    ({ lat := JsNum.num 1, lon := JsNum.num 1, ele := JsNum.num 0 } : Sample)
      ≠ toSample (⟨0, 0, some 0⟩ : TrackPoint) := by
  constructor
  · decide
  · decide

/-! ### C2 -/

/-- The GPX document used to exhibit the missing escaping. -/
def c2Gpx : GpxData := ⟨[⟨"Route", [[⟨50, 5, some 0⟩]]⟩]⟩

/-- An enriched station whose name and brand contain the XML-special
characters `&` and `<`/`>`. -/
def c2Station : EnrichedStation :=
  { station := { id := 7, name := "Shell & Co <West>", brand := "A&B",
                 lat := some 50, lon := some 5, distance := JsNum.num 100 }
    routeDistance := 0
    routePoint := ⟨JsNum.num 50, JsNum.num 5, JsNum.num 0⟩ }

/-- Whether the character list starts with the given pattern. -/
def listStartsWith : List Char → List Char → Bool
  | [], _ => true
  | _ :: _, [] => false
  | p :: ps, c :: cs => p == c && listStartsWith ps cs

/-- Whether the pattern occurs as a contiguous run anywhere in the list. -/
def listHasRun (pat : List Char) : List Char → Bool
  | [] => listStartsWith pat []
  | c :: cs => listStartsWith pat (c :: cs) || listHasRun pat cs

set_option maxRecDepth 10000 in
/-- C2: the claim states that `generateGPX` escapes user/service-supplied
text (station name, brand).  It is FALSE on the code: no escaping is
performed anywhere.  For a station named `Shell & Co <West>` with brand
`A&B` the emitted document contains the raw characters verbatim (three
raw `&` in text position — while the escaped form `&amp;` occurs nowhere
— and the literal `<West>` inside a text node), so the output is not
well-formed XML. -/
theorem C2_generateGPX_does_not_escape :
    generateGPX c2Gpx [c2Station]
      = "<?xml version=\"1.0\" encoding=\"UTF-8\"?>\n<gpx version=\"1.1\" creator=\"Fuel Station Finder Web App\" xmlns=\"http://www.topografix.com/GPX/1/1\">\n  <trk>\n    <name>Route</name>\n    <trkseg>\n      <trkpt lat=\"50\" lon=\"5\">\n        <ele>0</ele>\n      </trkpt>\n    </trkseg>\n  </trk>\n  <wpt lat=\"50\" lon=\"5\">\n    <name>⛽ #1 A&B (0km)</name>\n    <desc>Shell & Co <West> - A&B - 0km from start</desc>\n    <sym>Gas Station</sym>\n    <type>Fuel</type>\n  </wpt>\n</gpx>\n" ∧
    (generateGPX c2Gpx [c2Station]).data.count '&' = 3 ∧
    listHasRun ("&amp;".data) ((generateGPX c2Gpx [c2Station]).data) = false := by
  refine ⟨?_, ?_, ?_⟩ <;> decide

/-! ### C3 -/

/-- C3: on a cache miss whose external query fails (network error,
non-2xx response, or malformed body — all modelled by `Except.error`),
`findNearbyFuelStations` returns the empty candidate list, leaves the
cache unchanged (failures are never cached), and a subsequent call with
the same quantized key issues the external query again. -/
theorem C3_failure_empty_and_uncached (d : JsCoord → JsCoord → ℚ)
    (maxD : ℚ) (cache : Cache) (center : JsCoord)
    (resp2 : Except Unit OverpassData)
    (h : cacheLookup cache (quantKey center) = none) :
    (findNearbyFuelStations d maxD (Except.error ()) cache center).1 = [] ∧
    (findNearbyFuelStations d maxD (Except.error ()) cache center).2.1 = cache ∧
    (findNearbyFuelStations d maxD (Except.error ()) cache center).2.2 = true ∧
    (findNearbyFuelStations d maxD resp2
        (findNearbyFuelStations d maxD (Except.error ()) cache center).2.1 center).2.2 = true := by
  cases resp2 <;> simp [findNearbyFuelStations, h]

/-- C3 witness: the failure theorem applied at a concrete empty cache and
center. -/
theorem C3_failure_empty_and_uncached_witness :
    (findNearbyFuelStations (dConst 0) 2000 (Except.error ()) [] (JsNum.num 1, JsNum.num 2)).1 = [] ∧
    (findNearbyFuelStations (dConst 0) 2000 (Except.error ()) [] (JsNum.num 1, JsNum.num 2)).2.1 = [] ∧
    (findNearbyFuelStations (dConst 0) 2000 (Except.error ()) [] (JsNum.num 1, JsNum.num 2)).2.2 = true ∧
    (findNearbyFuelStations (dConst 0) 2000 (Except.ok ⟨some []⟩)
        (findNearbyFuelStations (dConst 0) 2000 (Except.error ()) [] (JsNum.num 1, JsNum.num 2)).2.1
        (JsNum.num 1, JsNum.num 2)).2.2 = true :=
  C3_failure_empty_and_uncached (dConst 0) 2000 [] (JsNum.num 1, JsNum.num 2) (Except.ok ⟨some []⟩) rfl

/-! ### C5 -/

/-- C5: two calls whose centers quantize to the same cache key perform at
most one external query: when the first call's response is successful,
the second call issues no external query, returns the identical memoized
list, leaves the cache unchanged, and the (possibly empty) successful
result of the first call is in the cache under the shared key before the
first call returns. -/
theorem C5_quantized_cache_idempotence (d : JsCoord → JsCoord → ℚ)
    (maxD : ℚ) (cache : Cache) (c1 c2 : JsCoord) (data : OverpassData)
    (resp2 : Except Unit OverpassData)
    (hk : quantKey c1 = quantKey c2) :
    (findNearbyFuelStations d maxD resp2
        (findNearbyFuelStations d maxD (Except.ok data) cache c1).2.1 c2).2.2 = false ∧
    (findNearbyFuelStations d maxD resp2
        (findNearbyFuelStations d maxD (Except.ok data) cache c1).2.1 c2).1
      = (findNearbyFuelStations d maxD (Except.ok data) cache c1).1 ∧
    cacheLookup (findNearbyFuelStations d maxD (Except.ok data) cache c1).2.1 (quantKey c1)
      = some (findNearbyFuelStations d maxD (Except.ok data) cache c1).1 ∧
    (findNearbyFuelStations d maxD resp2
        (findNearbyFuelStations d maxD (Except.ok data) cache c1).2.1 c2).2.1
      = (findNearbyFuelStations d maxD (Except.ok data) cache c1).2.1 := by
  cases hc : cacheLookup cache (quantKey c1) with
  | some v => simp [findNearbyFuelStations, ← hk, hc]
  | none => simp [findNearbyFuelStations, ← hk, hc, cacheInsert, cacheLookup]

/-- C5 witness: the idempotence theorem applied at a concrete center and
an empty cache. -/
theorem C5_quantized_cache_idempotence_witness :
    (findNearbyFuelStations (dConst 0) 2000 (Except.error ())
        (findNearbyFuelStations (dConst 0) 2000 (Except.ok ⟨some []⟩) [] (JsNum.num 1, JsNum.num 1)).2.1
        (JsNum.num 1, JsNum.num 1)).2.2 = false ∧
    (findNearbyFuelStations (dConst 0) 2000 (Except.error ())
        (findNearbyFuelStations (dConst 0) 2000 (Except.ok ⟨some []⟩) [] (JsNum.num 1, JsNum.num 1)).2.1
        (JsNum.num 1, JsNum.num 1)).1
      = (findNearbyFuelStations (dConst 0) 2000 (Except.ok ⟨some []⟩) [] (JsNum.num 1, JsNum.num 1)).1 ∧
    cacheLookup (findNearbyFuelStations (dConst 0) 2000 (Except.ok ⟨some []⟩) [] (JsNum.num 1, JsNum.num 1)).2.1
        (quantKey (JsNum.num 1, JsNum.num 1))
      = some (findNearbyFuelStations (dConst 0) 2000 (Except.ok ⟨some []⟩) [] (JsNum.num 1, JsNum.num 1)).1 ∧
    (findNearbyFuelStations (dConst 0) 2000 (Except.error ())
        (findNearbyFuelStations (dConst 0) 2000 (Except.ok ⟨some []⟩) [] (JsNum.num 1, JsNum.num 1)).2.1
        (JsNum.num 1, JsNum.num 1)).2.1
      = (findNearbyFuelStations (dConst 0) 2000 (Except.ok ⟨some []⟩) [] (JsNum.num 1, JsNum.num 1)).2.1 :=
  C5_quantized_cache_idempotence (dConst 0) 2000 [] (JsNum.num 1, JsNum.num 1) (JsNum.num 1, JsNum.num 1)
    ⟨some []⟩ (Except.error ()) rfl

/-! ### C7 -/

/-- C7: a zero-length route (in particular a single-point route) does not
fail the sampling stage: the computed sample count is exactly 1 and
sampling yields exactly one sample, the route's last (for a single-point
route: sole) point. -/
theorem C7_zero_length_route_one_sample (d : JsCoord → JsCoord → ℚ)
    (minInterval : ℚ) (pts : List TrackPoint) (h : pts ≠ [])
    (h0 : calculateTotalDistance d pts = 0) :
    numStationsOf d minInterval pts = 1 ∧
    sampleRoutePoints d pts (numStationsOf d minInterval pts)
      = [toSample (pts.getLast h)] := by
  have hn : numStationsOf d minInterval pts = 1 := by
    simp [numStationsOf, h0]
  refine ⟨hn, ?_⟩
  rw [hn]
  cases pts with
  | nil => exact absurd rfl h
  | cons p rest =>
    have htgt : sampleTarget (calculateTotalDistance d (p :: rest)) 1 0 = JsNum.nan := by
      simp [sampleTarget, JsNum.div]
    simp [sampleRoutePoints, List.range_succ, findPointAtDistance, htgt, fpadGo_nan]

/-- C7 witness: the zero-length theorem applied to a concrete
single-point route. -/
theorem C7_zero_length_route_one_sample_witness :
    numStationsOf (dConst 0) 40 [⟨1, 2, some 3⟩] = 1 ∧
    sampleRoutePoints (dConst 0) [⟨1, 2, some 3⟩] (numStationsOf (dConst 0) 40 [⟨1, 2, some 3⟩])
      = [toSample (⟨1, 2, some 3⟩ : TrackPoint)] :=
  C7_zero_length_route_one_sample (dConst 0) 40 [⟨1, 2, some 3⟩] (List.cons_ne_nil _ _) rfl

/-! ### C4 and C10: the candidate pipeline -/

/-- Every station in the pipeline output passed the truthiness/radius
filter. -/
theorem keep_of_mem_stationsOf {d : JsCoord → JsCoord → ℚ} {maxD : ℚ}
    {center : JsCoord} {data : OverpassData} {s : Station}
    (hs : s ∈ stationsOf d maxD center data) : keepStationB maxD s = true := by
  simp only [stationsOf] at hs
  have h1 := List.mem_of_mem_take hs
  have h2 := (insertionSort_perm stationLeB _).subset h1
  exact List.of_mem_filter h2

/-- Every station in the pipeline output was built by `mkStation` from a
fuel-tagged element of the response. -/
theorem mem_map_of_mem_stationsOf {d : JsCoord → JsCoord → ℚ} {maxD : ℚ}
    {center : JsCoord} {data : OverpassData} {s : Station}
    (hs : s ∈ stationsOf d maxD center data) :
    s ∈ List.map (mkStation d center) (List.filter isFuelB (data.elements.getD [])) := by
  simp only [stationsOf] at hs
  have h1 := List.mem_of_mem_take hs
  have h2 := (insertionSort_perm stationLeB _).subset h1
  exact List.mem_of_mem_filter h2

/-- A station built by `mkStation` that passes the filter has a finite
(rational) straight-line distance: unresolvable coordinates give a NaN
distance, and `<=` on NaN is false. -/
theorem mkStation_keep_distance_num {d : JsCoord → JsCoord → ℚ} {maxD : ℚ}
    {center : JsCoord} {e : OsmElement}
    (hk : keepStationB maxD (mkStation d center e) = true) :
    ∃ q, (mkStation d center e).distance = JsNum.num q := by
  simp only [keepStationB, Bool.and_eq_true] at hk
  have hle := hk.2
  simp only [mkStation] at hle
  cases hla : resolvedLat e with
  | none =>
    rw [hla] at hle
    simp [JsNum.leB] at hle
  | some la =>
    cases hlo : resolvedLon e with
    | none => rw [hla, hlo] at hle; simp [JsNum.leB] at hle
    | some lo =>
      refine ⟨d center (JsNum.num la, JsNum.num lo), ?_⟩
      simp only [mkStation, hla, hlo]

/-- Every station surviving the truthiness/radius filter (before sorting
and truncation) has a rational distance. -/
theorem mem_filtered_distance_num {d : JsCoord → JsCoord → ℚ} {maxD : ℚ}
    {center : JsCoord} {data : OverpassData} {s : Station}
    (hs : s ∈ List.filter (keepStationB maxD)
        (List.map (mkStation d center) (List.filter isFuelB (data.elements.getD [])))) :
    ∃ q, s.distance = JsNum.num q := by
  have hk := List.of_mem_filter hs
  obtain ⟨e, _, rfl⟩ := List.mem_map.mp (List.mem_of_mem_filter hs)
  exact mkStation_keep_distance_num hk

/-- The distance function of the C4 ranking example: three candidates at
300 m, 100 m and 900 m from the center and a fourth beyond the radius. -/
def dC4ex : JsCoord → JsCoord → ℚ := fun _ c =>
  if c = (JsNum.num 50, JsNum.num 1) then 300
  else if c = (JsNum.num 50, JsNum.num 2) then 100
  else if c = (JsNum.num 50, JsNum.num 3) then 900
  else 1500

/-- A fuel-tagged node element at latitude 50 and the given longitude. -/
def fuelElemAt (i : ℤ) (lo : ℚ) : OsmElement :=
  { id := i, tags := some ⟨some ("fuel"), none, none⟩, lat := some 50, lon := some lo, center := none }

set_option maxRecDepth 10000 in
/-- C4: for every successful response the candidate list contains only
stations built from fuel-tagged elements, no candidate farther than
`maxDistance`, is sorted ascending by straight-line distance, and has at
most 3 entries; and on the synthetic example with candidates at 300 m,
100 m, 900 m (and one at 1500 m) with radius 1000 m it returns them
ordered 100, 300, 900. -/
theorem C4_candidate_ranking_and_truncation :
    (∀ (d : JsCoord → JsCoord → ℚ) (maxD : ℚ) (center : JsCoord) (data : OverpassData),
      ((findNearbyFuelStations d maxD (Except.ok data) [] center).1).all
        (fun s => decide (s ∈ List.map (mkStation d center)
          (List.filter isFuelB (data.elements.getD [])))) = true ∧
      ((findNearbyFuelStations d maxD (Except.ok data) [] center).1).all
        (fun s => JsNum.leB s.distance (JsNum.num maxD)) = true ∧
      List.Chain' (fun a b => stationLeB a b = true)
        (findNearbyFuelStations d maxD (Except.ok data) [] center).1 ∧
      (findNearbyFuelStations d maxD (Except.ok data) [] center).1.length ≤ 3) ∧
    (findNearbyFuelStations dC4ex 1000
        (Except.ok ⟨some [fuelElemAt 1 1, fuelElemAt 2 2, fuelElemAt 3 3, fuelElemAt 4 4]⟩)
        [] (JsNum.num 50, JsNum.num 0)).1
      = [{ id := 2, name := "Unnamed Fuel Station", brand := "Unknown",
           lat := some 50, lon := some 2, distance := JsNum.num 100 },
         { id := 1, name := "Unnamed Fuel Station", brand := "Unknown",
           lat := some 50, lon := some 1, distance := JsNum.num 300 },
         { id := 3, name := "Unnamed Fuel Station", brand := "Unknown",
           lat := some 50, lon := some 3, distance := JsNum.num 900 }] := by
  constructor
  · intro d maxD center data
    have hred : (findNearbyFuelStations d maxD (Except.ok data) [] center).1
        = stationsOf d maxD center data := rfl
    refine ⟨?_, ?_, ?_, ?_⟩
    · rw [hred, List.all_eq_true]
      intro s hs
      exact decide_eq_true (mem_map_of_mem_stationsOf hs)
    · rw [hred, List.all_eq_true]
      intro s hs
      have hk := keep_of_mem_stationsOf hs
      simp only [keepStationB, Bool.and_eq_true] at hk
      exact hk.2
    · rw [hred]
      simp only [stationsOf]
      refine List.Chain'.take ?_ 3
      refine insertionSort_chain stationLeB _ ?_
      intro a ha b hb
      obtain ⟨qa, hqa⟩ := mem_filtered_distance_num ha
      obtain ⟨qb, hqb⟩ := mem_filtered_distance_num hb
      simp only [stationLeB, hqa, hqb, JsNum.leB]
      rcases le_total qa qb with h | h
      · exact Or.inl (decide_eq_true h)
      · exact Or.inr (decide_eq_true h)
    · rw [hred]
      simp only [stationsOf]
      exact List.length_take_le 3 _
  · decide

/-- A fuel-tagged element whose resolved latitude is exactly 0 (both the
direct and the center coordinate are 0) and whose longitude is 50. -/
def zeroLatElem : OsmElement :=
  { id := 1, tags := some ⟨some ("fuel"), some ("Equator Fuel"), none⟩,
    lat := some 0, lon := some 50, center := some (0, 50) }

/-- C10: the truthiness-based coordinate filter discards any candidate
whose resolved latitude or longitude is exactly 0, so no returned
candidate has a 0 coordinate; concretely, a fuel-tagged element with
resolved latitude 0 within the radius yields an empty candidate list. -/
theorem C10_zero_coordinates_discarded :
    (∀ (d : JsCoord → JsCoord → ℚ) (maxD : ℚ) (center : JsCoord) (data : OverpassData),
      ((findNearbyFuelStations d maxD (Except.ok data) [] center).1).all
        (fun s => truthyQ s.lat && truthyQ s.lon) = true) ∧
    (findNearbyFuelStations (dConst 100) 2000 (Except.ok ⟨some [zeroLatElem]⟩)
        [] (JsNum.num 0, JsNum.num 50)).1 = [] := by
  constructor
  · intro d maxD center data
    have hred : (findNearbyFuelStations d maxD (Except.ok data) [] center).1
        = stationsOf d maxD center data := rfl
    rw [hred, List.all_eq_true]
    intro s hs
    have hk := keep_of_mem_stationsOf hs
    simp only [keepStationB, Bool.and_eq_true] at hk
    simp [hk.1.1, hk.1.2]
  · decide

/-! ### C9: the serializer -/

/-- Concatenation of a list of strings (specification-side view of the
string-building loops). -/
def strConcat : List String → String
  | [] => ""
  | s :: rest => s ++ strConcat rest

/-- The waypoint blocks of `generateGPX`, with their 0-based indices. -/
def wptChunks : ℕ → List EnrichedStation → List String
  | _, [] => []
  | i, s :: ss => wptChunk i s :: wptChunks (i + 1) ss

/-- The track-point loop appends exactly one block per point, in order. -/
theorem trkptLoop_eq (ps : List TrackPoint) :
    ∀ acc, trkptLoop ps acc = acc ++ strConcat (ps.map trkptChunk) := by
  induction ps with
  | nil => intro acc; simp [trkptLoop, strConcat, String.append_empty]
  | cons p ps2 ih =>
    intro acc
    simp [trkptLoop, strConcat, ih, String.append_assoc]

/-- The waypoint loop appends exactly one block per station, in order. -/
theorem wptLoop_eq (ss : List EnrichedStation) :
    ∀ (i : ℕ) (acc : String), wptLoop i ss acc = acc ++ strConcat (wptChunks i ss) := by
  induction ss with
  | nil => intro i acc; simp [wptLoop, wptChunks, strConcat, String.append_empty]
  | cons s ss2 ih =>
    intro i acc
    simp [wptLoop, wptChunks, strConcat, ih, String.append_assoc]

/-- C9: serialization always succeeds and decomposes as: fixed header,
then every original track point re-emitted unchanged (one `trkptChunk`
per point, in input order, reproducing latitude, longitude and elevation
verbatim), then one waypoint block per enriched station, then the footer.
With an empty station list the waypoint section is empty and the
document is the original track alone. -/
theorem C9_serializer_emits_points_unchanged_then_waypoints
    (nm : String) (seg : List TrackPoint) (otherSegs : List (List TrackPoint))
    (rest : List GpxTrack) (stations : List EnrichedStation) :
    generateGPX ⟨⟨nm, seg :: otherSegs⟩ :: rest⟩ stations
      = "<?xml version=\"1.0\" encoding=\"UTF-8\"?>\n"
        ++ "<gpx version=\"1.1\" creator=\"Fuel Station Finder Web App\" xmlns=\"http://www.topografix.com/GPX/1/1\">\n"
        ++ "  <trk>\n" ++ ("    <name>" ++ jsOrStr nm ("Enhanced Route") ++ "</name>\n")
        ++ "    <trkseg>\n" ++ strConcat (seg.map trkptChunk) ++ "    </trkseg>\n"
        ++ "  </trk>\n"
        ++ strConcat (wptChunks 0 stations) ++ "</gpx>\n" ∧
    strConcat (wptChunks 0 ([] : List EnrichedStation)) = "" := by
  constructor
  · simp only [generateGPX, trkptLoop_eq, wptLoop_eq, String.append_assoc]
  · rfl

/-! ### C8: the enricher -/

/-- The enrichment loop is the filterMap of the per-sample query log:
one enriched station per sample with a nonempty candidate list, built
from that list's FIRST (nearest) candidate; nothing for empty lists. -/
theorem enrichLoop_eq_filterMap (d : JsCoord → JsCoord → ℚ) (maxD : ℚ)
    (oracle : JsCoord → Except Unit OverpassData) (pts : List TrackPoint) :
    ∀ (ss : List Sample) (cache : Cache),
      (enrichLoop d maxD oracle pts ss cache).1
        = List.filterMap
            (fun sr => sr.2.head?.map (fun best => mkEnriched d pts best sr.1))
            (enrichQueries d maxD oracle ss cache) := by
  intro ss
  induction ss with
  | nil => intro cache; rfl
  | cons s ss2 ih =>
    intro cache
    simp only [enrichLoop, enrichQueries, List.filterMap_cons]
    cases hF : (findNearbyFuelStations d maxD (oracle (s.lat, s.lon)) cache (s.lat, s.lon)).1 with
    | nil => simp [hF, ih]
    | cons best rest2 => simp [hF, ih]

/-- C8: the enriched list returned by `findFuelStations` is sorted
ascending by `routeDistance`, and is a permutation of the list holding
exactly one enriched station per sample whose POI query returned at
least one candidate (namely the first candidate of that sample's
already-sorted list, annotated with the distance along the route), with
no entry for samples with zero candidates. -/
theorem C8_enricher_sorted_one_per_nonempty_sample
    (d : JsCoord → JsCoord → ℚ) (maxD minInterval : ℚ)
    (oracle : JsCoord → Except Unit OverpassData) (pts : List TrackPoint) :
    List.Chain' (fun a b => a.routeDistance ≤ b.routeDistance)
      (findFuelStations d maxD minInterval oracle pts) ∧
    (findFuelStations d maxD minInterval oracle pts).Perm
      (List.filterMap
        (fun sr => sr.2.head?.map (fun best => mkEnriched d pts best sr.1))
        (enrichQueries d maxD oracle
          (sampleRoutePoints d pts (numStationsOf d minInterval pts)) [])) := by
  constructor
  · have h := insertionSort_chain enrichedLeB
      (enrichLoop d maxD oracle pts
        (sampleRoutePoints d pts (numStationsOf d minInterval pts)) []).1
      (by
        intro a _ b _
        rcases le_total a.routeDistance b.routeDistance with hab | hab
        · exact Or.inl (decide_eq_true hab)
        · exact Or.inr (decide_eq_true hab))
    exact h.imp (fun a b hab => of_decide_eq_true hab)
  · have hperm := insertionSort_perm enrichedLeB
      (enrichLoop d maxD oracle pts
        (sampleRoutePoints d pts (numStationsOf d minInterval pts)) []).1
    nth_rewrite 2 [enrichLoop_eq_filterMap] at hperm
    exact hperm

/-! ### C6: sample count and the final sample -/

theorem chainSum_nonneg (d : JsCoord → JsCoord → ℚ) (hd : ∀ a b, 0 ≤ d a b) :
    ∀ (ps : List TrackPoint) (p : TrackPoint), 0 ≤ chainSum d p ps := by
  intro ps
  induction ps with
  | nil => intro p; simp [chainSum]
  | cons q r ih =>
    intro p
    have h1 := hd (coordOf p) (coordOf q)
    have h2 := ih q
    simp only [chainSum]
    linarith

/-- Along a chain of total length 0 (with a nonnegative distance function
whose zeros have equal coordinates), the last point has the coordinates
of the first. -/
theorem chainSum_zero_latlon (d : JsCoord → JsCoord → ℚ)
    (hd : ∀ a b, 0 ≤ d a b)
    (hz : ∀ a b : TrackPoint, d (coordOf a) (coordOf b) = 0 → a.lat = b.lat ∧ a.lon = b.lon) :
    ∀ (ps : List TrackPoint) (p : TrackPoint), chainSum d p ps = 0 →
      (ps.getLastD p).lat = p.lat ∧ (ps.getLastD p).lon = p.lon := by
  intro ps
  induction ps with
  | nil => intro p _; exact ⟨rfl, rfl⟩
  | cons q r ih =>
    intro p h0
    simp only [chainSum] at h0
    have hseg := hd (coordOf p) (coordOf q)
    have htail := chainSum_nonneg d hd r q
    have h1 : d (coordOf p) (coordOf q) = 0 := by linarith
    have h2 : chainSum d q r = 0 := by linarith
    have hpq := hz p q h1
    have ihr := ih q h2
    rw [List.getLastD_cons]
    exact ⟨ihr.1.trans hpq.1.symm, ihr.2.trans hpq.2.symm⟩

/-- A target strictly beyond the remaining chain length never triggers
the interpolation test: the loop falls through to the last point. -/
theorem fpadGo_gt_total (d : JsCoord → JsCoord → ℚ) (hd : ∀ a b, 0 ≤ d a b)
    (lastP : TrackPoint) :
    ∀ (rest : List TrackPoint) (prev : TrackPoint) (acc t : ℚ),
      acc + chainSum d prev rest < t →
      fpadGo d lastP prev rest acc (JsNum.num t) = toSample lastP := by
  intro rest
  induction rest with
  | nil => intro prev acc t _; rfl
  | cons p ps ih =>
    intro prev acc t hlt
    simp only [chainSum] at hlt
    have htail := chainSum_nonneg d hd ps p
    have hnot : ¬ (t ≤ acc + d (coordOf prev) (coordOf p)) := by linarith
    have step : fpadGo d lastP prev (p :: ps) acc (JsNum.num t)
        = fpadGo d lastP p ps (acc + d (coordOf prev) (coordOf p)) (JsNum.num t) := by
      simp only [fpadGo, JsNum.geB, decide_eq_true_eq]
      rw [if_neg hnot]
    rw [step]
    exact ih p _ t (by linarith)

/-- When the target equals the exact remaining chain length (and lies
strictly ahead of the accumulated distance), the loop triggers on the
last positive-length segment with interpolation fraction exactly 1, so
the returned sample carries the coordinates of the chain's last point. -/
theorem fpadGo_at_total (d : JsCoord → JsCoord → ℚ) (hd : ∀ a b, 0 ≤ d a b)
    (hz : ∀ a b : TrackPoint, d (coordOf a) (coordOf b) = 0 → a.lat = b.lat ∧ a.lon = b.lon)
    (lastP : TrackPoint) :
    ∀ (rest : List TrackPoint) (prev : TrackPoint) (acc t : ℚ),
      acc < t → acc + chainSum d prev rest = t →
      (fpadGo d lastP prev rest acc (JsNum.num t)).lat = JsNum.num ((rest.getLastD prev).lat) ∧
      (fpadGo d lastP prev rest acc (JsNum.num t)).lon = JsNum.num ((rest.getLastD prev).lon) := by
  intro rest
  induction rest with
  | nil =>
    intro prev acc t hlt hsum
    simp only [chainSum, add_zero] at hsum
    exact absurd hsum (ne_of_lt hlt)
  | cons p ps ih =>
    intro prev acc t hlt hsum
    simp only [chainSum] at hsum
    have hseg0 := hd (coordOf prev) (coordOf p)
    have htail0 := chainSum_nonneg d hd ps p
    rw [List.getLastD_cons]
    by_cases hge : t ≤ acc + d (coordOf prev) (coordOf p)
    · have heq : acc + d (coordOf prev) (coordOf p) = t := by linarith
      have hchain0 : chainSum d p ps = 0 := by linarith
      have hsegpos : 0 < d (coordOf prev) (coordOf p) := by linarith
      have step : fpadGo d lastP prev (p :: ps) acc (JsNum.num t)
          = interpSample prev p
              (((JsNum.num t).sub (JsNum.num acc)).div (JsNum.num (d (coordOf prev) (coordOf p)))) := by
        simp only [fpadGo, JsNum.geB, decide_eq_true_eq]
        rw [if_pos hge]
      have hfrac : ((JsNum.num t).sub (JsNum.num acc)).div (JsNum.num (d (coordOf prev) (coordOf p)))
          = JsNum.num 1 := by
        simp only [JsNum.sub, JsNum.neg, JsNum.add, JsNum.div]
        rw [if_neg hsegpos.ne.symm]
        congr 1
        field_simp
        linarith
      have hlast := chainSum_zero_latlon d hd hz ps p hchain0
      rw [step, hfrac]
      constructor
      · simp only [interpSample, JsNum.sub, JsNum.neg, JsNum.add, JsNum.mul, hlast.1]
        congr 1
        ring
      · simp only [interpSample, JsNum.sub, JsNum.neg, JsNum.add, JsNum.mul, hlast.2]
        congr 1
        ring
    · have step : fpadGo d lastP prev (p :: ps) acc (JsNum.num t)
          = fpadGo d lastP p ps (acc + d (coordOf prev) (coordOf p)) (JsNum.num t) := by
        simp only [fpadGo, JsNum.geB, decide_eq_true_eq]
        rw [if_neg hge]
      rw [step]
      exact ih p _ t (lt_of_not_ge hge) (by linarith)

/-- On a nonempty route the sampler is the map of `findPointAtDistance`
over the target indices (every sampled point is truthy, so every index
contributes). -/
theorem sampleRoutePoints_eq_map (d : JsCoord → JsCoord → ℚ) (p : TrackPoint)
    (rest : List TrackPoint) (n : ℕ) :
    sampleRoutePoints d (p :: rest) n
      = (List.range n).map (fun i =>
          fpadGo d ((p :: rest).getLast (List.cons_ne_nil p rest)) p rest 0
            (sampleTarget (calculateTotalDistance d (p :: rest)) n i)) := by
  simp only [sampleRoutePoints, findPointAtDistance]
  exact filterMap_eq_map_of_forall_some _ _ _ (fun i _ => rfl)

/-- The last sample's target distance is exactly the total distance. -/
theorem sampleTarget_last (td : ℚ) (n : ℕ) (hn : 2 ≤ n) :
    sampleTarget td n (n - 1) = JsNum.num td := by
  have h1 : (((n - 1 : ℕ)) : ℚ) = (n : ℚ) - 1 := by
    have hn1 : (1:ℕ) ≤ n := by omega
    push_cast [hn1]
    ring
  have hne : ((n : ℚ) - 1) ≠ 0 := by
    have h2 : (2:ℚ) ≤ (n:ℚ) := by exact_mod_cast hn
    linarith
  simp only [sampleTarget, JsNum.div]
  rw [if_neg hne]
  rw [h1, mul_div_cancel_left₀ _ hne]

/-- With one single sample the target distance is `0 * td / 0 = NaN`. -/
theorem sampleTarget_one (td : ℚ) : sampleTarget td 1 0 = JsNum.nan := by
  simp [sampleTarget, JsNum.div]

/-- C6 (amended): for every route of at least 2 points and every
`n ≥ 1`, the sampler returns exactly `n` points; and PROVIDED the total
route distance is positive, the last returned point's position is
exactly the last input point's position, and any target distance beyond
the total route length returns the last point verbatim.  (The original
claim, without the positivity proviso, is refuted by
`C6_counterexample_zero_length_route`: on a zero-length route with
`n ≥ 2` the interpolation fraction is `0/0 = NaN` and the samples have
NaN coordinates.)  The hypotheses on `d` — nonnegativity, and zero
distance only between points with equal coordinates — hold for the
haversine distance on coordinates away from the poles. -/
theorem C6_sampler_count_and_final_position (d : JsCoord → JsCoord → ℚ)
    (pts : List TrackPoint) (n : ℕ)
    (hd : ∀ a b, 0 ≤ d a b)
    (hz : ∀ a b : TrackPoint, d (coordOf a) (coordOf b) = 0 → a.lat = b.lat ∧ a.lon = b.lon)
    (h2 : 2 ≤ pts.length) (hn : 1 ≤ n) :
    (sampleRoutePoints d pts n).length = n ∧
    (0 < calculateTotalDistance d pts →
      (sampleRoutePoints d pts n).getLast?.map (fun s => (s.lat, s.lon))
        = pts.getLast?.map (fun q => (JsNum.num q.lat, JsNum.num q.lon))) ∧
    (∀ t : ℚ, calculateTotalDistance d pts < t →
      findPointAtDistance d pts (JsNum.num t) = pts.getLast?.map toSample) := by
  cases pts with
  | nil => simp at h2
  | cons p rest =>
    have hglast : (p :: rest).getLast (List.cons_ne_nil p rest) = rest.getLastD p := by
      simp [List.getLast_eq_getLastD]
    have hlastq : (p :: rest).getLast? = some (rest.getLastD p) := by
      simp [List.getLast?_cons]
    have hrange : (List.range n).getLast? = some (n - 1) := by
      cases n with
      | zero => omega
      | succ m => rw [List.range_succ, List.getLast?_concat]; simp
    rw [sampleRoutePoints_eq_map]
    simp only [hglast]
    refine ⟨by simp, ?_, ?_⟩
    · intro hpos
      rw [List.getLast?_map, hrange, hlastq]
      simp only [Option.map_some']
      rcases eq_or_lt_of_le hn with h1 | h1
      · subst h1
        simp [sampleTarget_one, fpadGo_nan, toSample]
      · have hn2 : 2 ≤ n := h1
        rw [sampleTarget_last _ _ hn2]
        have hfa := fpadGo_at_total d hd hz (rest.getLastD p) rest p 0
          (calculateTotalDistance d (p :: rest)) hpos (by simp [calculateTotalDistance])
        rw [hfa.1, hfa.2]
    · intro t ht
      rw [hlastq]
      simp only [findPointAtDistance, Option.map_some', hglast]
      rw [fpadGo_gt_total d hd (rest.getLastD p) rest p 0 t
        (by simp only [calculateTotalDistance] at ht; linarith)]

/-- C6 counterexample: on the zero-length two-point route `[(0,0), (0,0)]`
(where the haversine distance is exactly 0, as `dConst 0` models) with
`n = 2`, both samples have NaN coordinates — the interpolation fraction
is `0/0 = NaN` — so the last returned point's position does NOT match
the last input point under any tolerance, refuting the claim as
stated. -/
theorem C6_counterexample_zero_length_route :
    sampleRoutePoints (dConst 0) [⟨0, 0, some 0⟩, ⟨0, 0, some 0⟩] 2
      = [⟨JsNum.nan, JsNum.nan, JsNum.nan⟩, ⟨JsNum.nan, JsNum.nan, JsNum.nan⟩] ∧
    (⟨JsNum.nan, JsNum.nan, JsNum.nan⟩ : Sample).lat ≠ JsNum.num 0 := by
  constructor <;> decide

/-- The discrete metric on coordinates: a distance function that is
nonnegative and zero only between equal coordinates (used to witness the
amended C6 theorem). -/
def dWitness : JsCoord → JsCoord → ℚ := fun a b => if a = b then 0 else 1

/-- C6 witness: the amended theorem applied to the concrete route
`[(0,0), (3,4)]` with `n = 2` (total distance 1 under `dWitness`). -/
theorem C6_sampler_count_and_final_position_witness :
    (sampleRoutePoints dWitness [⟨0, 0, some 0⟩, ⟨3, 4, some 0⟩] 2).length = 2 ∧
    (sampleRoutePoints dWitness [⟨0, 0, some 0⟩, ⟨3, 4, some 0⟩] 2).getLast?.map
        (fun s => (s.lat, s.lon))
      = some (JsNum.num 3, JsNum.num 4) ∧
    findPointAtDistance dWitness [⟨0, 0, some 0⟩, ⟨3, 4, some 0⟩] (JsNum.num 2)
      = some (toSample (⟨3, 4, some 0⟩ : TrackPoint)) := by
  obtain ⟨hlen, hlast, hbeyond⟩ :=
    C6_sampler_count_and_final_position dWitness
      [⟨0, 0, some 0⟩, ⟨3, 4, some 0⟩] 2
      (by intro a b; dsimp [dWitness]; split <;> norm_num)
      (by
        intro a b h
        by_cases hab : coordOf a = coordOf b
        · refine ⟨JsNum.num.inj ?_, JsNum.num.inj ?_⟩
          · exact congrArg Prod.fst hab
          · exact congrArg Prod.snd hab
        · simp [dWitness, hab] at h)
      (by simp) (by omega)
  refine ⟨hlen, ?_, ?_⟩
  · rw [hlast (by decide)]
    decide
  · rw [hbeyond 2 (by decide)]
    decide
